import Mathlib

/-!
Shallow embedding of the aoc-helper library (src/lib.rs): generic 2D points
(`Point`), 3D points (`Point3d`), a four-way `Direction` enum, string parsing
for both point types, Manhattan distance, neighbor enumeration and a grid
printing helper.  Strings are modelled as Lean `String`s, with the character
data (`String.data`) driving the splitting functions; machine integers are
modelled as unbounded `Int` (the claims under study do not involve overflow);
Rust's `Result<_, ()>`-with-possible-panic is modelled by `ParseOutcome`.
-/

/-- Outcome of a fallible Rust function that may also abort the process:
`panics` models a failed `unwrap` or `assert_eq!` (process abort), `error`
models `Err(())`, and `ok` models `Ok`. -/
inductive ParseOutcome (α : Type) where
  | panics : ParseOutcome α
  | error : ParseOutcome α
  | ok : α → ParseOutcome α
  deriving DecidableEq

/-- The 2D point type (src/lib.rs `Point<T>`), an ordered pair of scalars. -/
structure Point (T : Type) where
  x : T
  y : T
  deriving DecidableEq

/-- The 3D point type (src/lib.rs `Point3d<T>`), an ordered triple. -/
structure Point3d (T : Type) where
  x : T
  y : T
  z : T
  deriving DecidableEq

/-- The four-way compass enum (src/lib.rs `Direction`). -/
inductive Direction where
  | Left
  | Right
  | Up
  | Down
  deriving DecidableEq

/-- src/lib.rs `Direction::rotate_clockwise`. -/
def Direction.rotate_clockwise : Direction → Direction
  | .Left => .Up
  | .Right => .Down
  | .Up => .Right
  | .Down => .Left

/-- src/lib.rs `Direction::rotate_counterclockwise`. -/
def Direction.rotate_counterclockwise : Direction → Direction
  | .Left => .Down
  | .Right => .Up
  | .Up => .Left
  | .Down => .Right

/-- src/lib.rs `Direction::as_vector` (the default scalar `isize` is
modelled as `Int`). -/
def Direction.as_vector : Direction → Point Int
  | .Left => ⟨-1, 0⟩
  | .Right => ⟨1, 0⟩
  | .Up => ⟨0, -1⟩
  | .Down => ⟨0, 1⟩

/-- src/lib.rs `Point::between`: the conjunction of the four comparisons,
in source order. -/
def Point.between {T : Type} [LinearOrder T]
    (self upper_left lower_right : Point T) : Bool :=
  decide (self.x ≥ upper_left.x) && decide (self.x ≤ lower_right.x) &&
    decide (self.y ≥ upper_left.y) && decide (self.y ≤ lower_right.y)

/-- Rust `isize::abs_diff`: the absolute difference of two signed integers as
a non-negative integer, computed by comparing first. -/
def absDiff (a b : Int) : Nat :=
  if a < b then (b - a).toNat else (a - b).toNat

/-- src/lib.rs `Point::distance` for `T: Into<isize>`: per-axis unsigned
absolute difference of the converted coordinates, summed.  `into` models the
scalar's lossless conversion to the signed machine integer. -/
def Point.distance {T : Type} (into : T → Int) (self other : Point T) : Nat :=
  absDiff (into self.x) (into other.x) + absDiff (into self.y) (into other.y)

/-- src/lib.rs `Add<Point<T>> for Point<T>`. -/
def Point.add {T : Type} [Add T] (self rhs : Point T) : Point T :=
  ⟨self.x + rhs.x, self.y + rhs.y⟩

/-- src/lib.rs `Add<(T, T)> for Point<T>`. -/
def Point.add_tuple {T : Type} [Add T] (self : Point T) (rhs : T × T) : Point T :=
  ⟨self.x + rhs.1, self.y + rhs.2⟩

/-- src/lib.rs `AddAssign<Point<T>> for Point<T>`: the mutation
`self.x = self.x + rhs.x; self.y = self.y + rhs.y` as explicit state passing. -/
def Point.add_assign {T : Type} [Add T] (self rhs : Point T) : Point T :=
  ⟨self.x + rhs.x, self.y + rhs.y⟩

/-- src/lib.rs `AddAssign<(T, T)> for Point<T>` as explicit state passing. -/
def Point.add_assign_tuple {T : Type} [Add T] (self : Point T) (rhs : T × T) :
    Point T :=
  ⟨self.x + rhs.1, self.y + rhs.2⟩

/-- src/lib.rs `Sub<Point<T>> for Point<T>`. -/
def Point.sub {T : Type} [Sub T] (self rhs : Point T) : Point T :=
  ⟨self.x - rhs.x, self.y - rhs.y⟩

/-- src/lib.rs `Sub<(T, T)> for Point<T>`. -/
def Point.sub_tuple {T : Type} [Sub T] (self : Point T) (rhs : T × T) : Point T :=
  ⟨self.x - rhs.1, self.y - rhs.2⟩

/-- src/lib.rs `SubAssign<Point<T>> for Point<T>` as explicit state passing. -/
def Point.sub_assign {T : Type} [Sub T] (self rhs : Point T) : Point T :=
  ⟨self.x - rhs.x, self.y - rhs.y⟩

/-- src/lib.rs `SubAssign<(T, T)> for Point<T>` as explicit state passing. -/
def Point.sub_assign_tuple {T : Type} [Sub T] (self : Point T) (rhs : T × T) :
    Point T :=
  ⟨self.x - rhs.1, self.y - rhs.2⟩

/-- src/lib.rs `Point3d::borders` (implemented only for the default scalar
`isize`, modelled as `Int`): the six axis-aligned neighbors in source order. -/
def Point3d.borders (self : Point3d Int) : List (Point3d Int) :=
  [⟨self.x - 1, self.y, self.z⟩, ⟨self.x + 1, self.y, self.z⟩,
   ⟨self.x, self.y - 1, self.z⟩, ⟨self.x, self.y + 1, self.z⟩,
   ⟨self.x, self.y, self.z - 1⟩, ⟨self.x, self.y, self.z + 1⟩]

/-- Manhattan distance of two 3D points: the sum of the absolute per-axis
coordinate differences. -/
def manhattan3d (a b : Point3d Int) : Nat :=
  (a.x - b.x).natAbs + (a.y - b.y).natAbs + (a.z - b.z).natAbs

/-- Rust `str::split_once(c)`: the text before and after the first occurrence
of `c`, or `none` when `c` does not occur.  Strings are handled as their
character lists. -/
def split_once (c : Char) : List Char → Option (List Char × List Char)
  | [] => none
  | a :: rest =>
    if a = c then some ([], rest)
    else (split_once c rest).map (fun p => (a :: p.1, p.2))

/-- Rust `str::split(", ")` on the character list: leftmost-first splitting on
the two-character separator `", "`; always returns at least one piece. -/
def splitCommaSpace : List Char → List (List Char)
  | [] => [[]]
  | ',' :: ' ' :: rest => [] :: splitCommaSpace rest
  | a :: rest =>
    match splitCommaSpace rest with
    | [] => [[a]]
    | l :: ls => (a :: l) :: ls

/-- Rust `str::split(",")` on the character list: leftmost-first splitting on
the single character `','`; always returns at least one piece. -/
def splitComma : List Char → List (List Char)
  | [] => [[]]
  | ',' :: rest => [] :: splitComma rest
  | a :: rest =>
    match splitComma rest with
    | [] => [[a]]
    | l :: ls => (a :: l) :: ls

/-- Accumulating decimal digit parser: `none` as soon as a non-digit is met. -/
def parseDigitsAux : List Char → Nat → Option Nat
  | [], acc => some acc
  | c :: rest, acc =>
    if c.isDigit then parseDigitsAux rest (10 * acc + (c.toNat - 48)) else none

/-- Rust `isize::from_str` (overflow aside, `isize` modelled as unbounded
`Int`): an optional single `+`/`-` sign followed by one or more decimal
digits, nothing else. -/
def parseSignedInt : List Char → Option Int
  | [] => none
  | '+' :: rest =>
    if rest.isEmpty then none else (parseDigitsAux rest 0).map (fun n => (n : Int))
  | '-' :: rest =>
    if rest.isEmpty then none else (parseDigitsAux rest 0).map (fun n => -(n : Int))
  | l => (parseDigitsAux l 0).map (fun n => (n : Int))

/-- src/lib.rs `<Point<T> as FromStr>::from_str`, for any scalar parser
`parseT` (Rust `T: FromStr`).  Split on `", "`; the first piece must split at
`'='` (`unwrap`) with label `"x"` (`assert_eq!`); a second piece must exist
and split at `'='` with label `"y"`; then both numeric substrings are parsed,
either failure giving `Err(())`. -/
def Point.from_str {T : Type} (parseT : List Char → Option T) (s : String) :
    ParseOutcome (Point T) :=
  match splitCommaSpace s.data with
  | [] => .panics
  | first :: rest =>
    match split_once '=' first with
    | none => .panics
    | some (start, xs) =>
      if start = ['x'] then
        match rest with
        | [] => .panics
        | second :: _ =>
          match split_once '=' second with
          | none => .panics
          | some (start2, ys) =>
            if start2 = ['y'] then
              match parseT xs, parseT ys with
              | some x, some y => .ok ⟨x, y⟩
              | _, _ => .error
            else .panics
      else .panics

/-- The label structure of the 2D text form: `some (xs, ys)` with the two
numeric substrings exactly when the first two `", "`-separated pieces split at
`'='` with labels `"x"` and `"y"` in that order (the condition under which
the source's `unwrap`s and `assert_eq!`s all pass), `none` otherwise. -/
def labelFields (s : String) : Option (List Char × List Char) :=
  match splitCommaSpace s.data with
  | [] => none
  | first :: rest =>
    match split_once '=' first with
    | none => none
    | some (start, xs) =>
      if start = ['x'] then
        match rest with
        | [] => none
        | second :: _ =>
          match split_once '=' second with
          | none => none
          | some (start2, ys) =>
            if start2 = ['y'] then some (xs, ys) else none
      else none

/-- src/lib.rs `<Point3d<T> as FromStr>::from_str`: split on `","`, then
`splits.next().unwrap().parse().map_err(|_| ())?` three times in order — a
parse failure of an available piece returns `Err(())`, while a missing piece
makes `unwrap` panic (reached only when every earlier piece parsed). -/
def Point3d.from_str {T : Type} (parseT : List Char → Option T) (s : String) :
    ParseOutcome (Point3d T) :=
  match splitComma s.data with
  | [] => .panics
  | [xf] =>
    match parseT xf with
    | none => .error
    | some _ => .panics
  | [xf, yf] =>
    match parseT xf with
    | none => .error
    | some _ =>
      match parseT yf with
      | none => .error
      | some _ => .panics
  | xf :: yf :: zf :: _ =>
    match parseT xf with
    | none => .error
    | some x =>
      match parseT yf with
      | none => .error
      | some y =>
        match parseT zf with
        | none => .error
        | some z => .ok ⟨x, y, z⟩

/-- src/lib.rs `PrintBoard for Vec<Vec<T>>`: render every cell, concatenate
each row, then `reduce` the rows with `format!("\x7b\x7d\n\x7b\x7d", left, right)`,
defaulting to the empty string for an empty board. -/
def print_board {T : Type} (toStr : T → String) (board : List (List T)) : String :=
  match board.map (fun row => String.join (row.map toStr)) with
  | [] => ""
  | l :: ls => ls.foldl (fun left right => left ++ "\n" ++ right) l

/-- Modelled from the spec: one line per row, the lines joined by single
newline characters, the empty list of lines giving the empty string. -/
def joinLinesSpec : List String → String
  | [] => ""
  | [l] => l
  | l :: ls => l ++ "\n" ++ joinLinesSpec ls

theorem absDiff_eq_natAbs (a b : Int) : absDiff a b = (a - b).natAbs := by
  unfold absDiff
  split <;> omega

/-- C1: for every scalar with a total order and all points `p`, `upper_left`,
`lower_right`, `p.between(upper_left, lower_right)` is true iff
`upper_left.x ≤ p.x ≤ lower_right.x` and `upper_left.y ≤ p.y ≤ lower_right.y`,
each axis checked independently with inclusive bounds. -/
theorem Point.between_iff {T : Type} [LinearOrder T]
    (p upper_left lower_right : Point T) :
    Point.between p upper_left lower_right = true ↔
      (upper_left.x ≤ p.x ∧ p.x ≤ lower_right.x ∧
        upper_left.y ≤ p.y ∧ p.y ≤ lower_right.y) := by
  simp [Point.between, ge_iff_le, and_assoc]

/-- C4: `borders` yields exactly the six neighbors in the fixed order
`(x−1,y,z), (x+1,y,z), (x,y−1,z), (x,y+1,z), (x,y,z−1), (x,y,z+1)`; they are
pairwise distinct and each lies at Manhattan distance 1 from the point. -/
theorem Point3d.borders_spec (p : Point3d Int) :
    Point3d.borders p =
      [⟨p.x - 1, p.y, p.z⟩, ⟨p.x + 1, p.y, p.z⟩, ⟨p.x, p.y - 1, p.z⟩,
        ⟨p.x, p.y + 1, p.z⟩, ⟨p.x, p.y, p.z - 1⟩, ⟨p.x, p.y, p.z + 1⟩] ∧
    (Point3d.borders p).Pairwise (fun a b => a ≠ b) ∧
    (∀ q ∈ Point3d.borders p, manhattan3d q p = 1) := by
  refine ⟨rfl, ?_, ?_⟩
  · simp [Point3d.borders, List.pairwise_cons, Point3d.mk.injEq]
    omega
  · intro q hq
    simp only [Point3d.borders, List.mem_cons, List.not_mem_nil, or_false] at hq
    rcases hq with h | h | h | h | h | h <;> subst h <;>
      simp only [manhattan3d] <;> omega

/-- C5: `distance` equals the Manhattan distance of the converted
coordinates, `|a.x − b.x| + |a.y − b.y|`, as a non-negative integer; it is
symmetric, and the distance of a point to itself is 0. -/
theorem Point.distance_manhattan {T : Type} (into : T → Int) (a b : Point T) :
    Point.distance into a b =
      (into a.x - into b.x).natAbs + (into a.y - into b.y).natAbs ∧
    Point.distance into a b = Point.distance into b a ∧
    Point.distance into a a = 0 := by
  unfold Point.distance
  simp only [absDiff_eq_natAbs]
  refine ⟨trivial, ?_, ?_⟩ <;> omega

/-- C6: rotating clockwise four times is the identity on every `Direction`,
and `rotate_counterclockwise` is the exact inverse permutation of
`rotate_clockwise`. -/
theorem Direction.rotate_spec (d : Direction) :
    d.rotate_clockwise.rotate_clockwise.rotate_clockwise.rotate_clockwise = d ∧
    d.rotate_clockwise.rotate_counterclockwise = d ∧
    d.rotate_counterclockwise.rotate_clockwise = d := by
  cases d <;> exact ⟨rfl, rfl, rfl⟩

/-- C7: `as_vector` maps Left to (−1,0), Right to (1,0), Up to (0,−1) and
Down to (0,1) (y increases downward); in particular `Up.as_vector` is
`(0, -1)` and adding it to `(5, 5)` yields `(5, 4)`. -/
theorem Direction.as_vector_spec :
    Direction.Left.as_vector = ⟨-1, 0⟩ ∧
    Direction.Right.as_vector = ⟨1, 0⟩ ∧
    Direction.Up.as_vector = ⟨0, -1⟩ ∧
    Direction.Down.as_vector = ⟨0, 1⟩ ∧
    Point.add ⟨5, 5⟩ Direction.Up.as_vector = ⟨5, 4⟩ := by
  refine ⟨rfl, rfl, rfl, rfl, ?_⟩
  decide

/-- C9: every in-place operator agrees with its pure counterpart: `+=` with a
point or a pair leaves the value `+` would produce, and likewise `-=` with
`-`, each axis combined independently. -/
theorem Point.assign_ops_agree {T : Type} [Add T] [Sub T]
    (p q : Point T) (r : T × T) :
    Point.add_assign p q = Point.add p q ∧
    Point.add_assign_tuple p r = Point.add_tuple p r ∧
    Point.sub_assign p q = Point.sub p q ∧
    Point.sub_assign_tuple p r = Point.sub_tuple p r :=
  ⟨rfl, rfl, rfl, rfl⟩

theorem option_catch {α β : Type} (o1 : Option α) (o2 : Option β)
    (h : ∀ x y, o1 = some x → ¬o2 = some y) : o1 = none ∨ o2 = none := by
  cases o1 <;> cases o2 <;> simp_all

theorem strAppendAssoc (a b c : String) : a ++ b ++ c = a ++ (b ++ c) := by
  cases a with | mk da =>
  cases b with | mk db =>
  cases c with | mk dc =>
  show String.mk (da ++ db ++ dc) = String.mk (da ++ (db ++ dc))
  rw [List.append_assoc]

theorem foldl_joinLines (ls : List String) (init : String) :
    ls.foldl (fun left right => left ++ "\n" ++ right) init =
      joinLinesSpec (init :: ls) := by
  induction ls generalizing init with
  | nil => rfl
  | cons r rs ih =>
    show rs.foldl (fun left right => left ++ "\n" ++ right) (init ++ "\n" ++ r) =
      joinLinesSpec (init :: r :: rs)
    rw [ih]
    cases rs with
    | nil => rfl
    | cons t ts => simp [joinLinesSpec, strAppendAssoc]

/-- C8: `print_board` renders one line per row — the cells of a row
concatenated with no separator — with the rows joined by single newline
characters; the empty board renders as `""`, and `[["a","b"],["c","d"]]`
renders as `"ab\ncd"`. -/
theorem print_board_spec :
    (∀ (T : Type) (toStr : T → String) (board : List (List T)),
        print_board toStr board =
          joinLinesSpec (board.map (fun row => String.join (row.map toStr)))) ∧
    print_board (fun s : String => s) [] = "" ∧
    print_board (fun s : String => s) [["a", "b"], ["c", "d"]] = "ab\ncd" := by
  refine ⟨?_, rfl, by decide⟩
  intro T toStr board
  unfold print_board
  cases h : board.map (fun row => String.join (row.map toStr)) with
  | nil => rfl
  | cons l ls => exact foldl_joinLines ls l

/-- C2: 2D parsing returns the recoverable error `Err(())` exactly when the
label structure is well-formed but one of the two numeric substrings fails to
parse (no partial object exists: `error` carries nothing), succeeds when both
parse, and panics (aborts) exactly when the `"x="`/`"y="` labels are missing
or out of order. -/
theorem Point.from_str_errors {T : Type} (parseT : List Char → Option T)
    (s : String) :
    (Point.from_str parseT s = ParseOutcome.panics ↔ labelFields s = none) ∧
    (∀ xs ys, labelFields s = some (xs, ys) →
      ((Point.from_str parseT s = ParseOutcome.error ↔
          (parseT xs = none ∨ parseT ys = none)) ∧
        (∀ x y, parseT xs = some x → parseT ys = some y →
          Point.from_str parseT s = ParseOutcome.ok ⟨x, y⟩))) := by
  unfold Point.from_str labelFields
  repeat' split
  all_goals simp_all
  rename_i hne
  exact option_catch _ _ hne

/-- C3 counterexample: on the input `"5"` the third and second comma-separated
fields are missing, yet 3D parsing panics (a failed `unwrap`, aborting the
process) instead of returning the recoverable parse error the claim asserts. -/
theorem Point3d.from_str_missing_field_panics :
    Point3d.from_str parseSignedInt "5" = ParseOutcome.panics ∧
    Point3d.from_str parseSignedInt "5" ≠ ParseOutcome.error := by
  decide

/-- C3 amended: with the fields taken left to right, 3D parsing returns the
recoverable error `Err(())` exactly when some field that is present (among
the first three) fails to parse; when at least three fields are present it
never panics and succeeds with the three parsed values; but when fewer than
three fields are present and every present field parses, it panics (a failed
`unwrap`) instead of returning a recoverable error.  No partial object is
produced in any failure case. -/
theorem Point3d.from_str_characterization {T : Type}
    (parseT : List Char → Option T) (s : String) :
    (∀ a b c rest, splitComma s.data = a :: b :: c :: rest →
      (Point3d.from_str parseT s ≠ ParseOutcome.panics ∧
        (Point3d.from_str parseT s = ParseOutcome.error ↔
          (parseT a = none ∨ parseT b = none ∨ parseT c = none)) ∧
        (∀ x y z, parseT a = some x → parseT b = some y → parseT c = some z →
          Point3d.from_str parseT s = ParseOutcome.ok ⟨x, y, z⟩))) ∧
    (∀ a, splitComma s.data = [a] →
      ((Point3d.from_str parseT s = ParseOutcome.error ↔ parseT a = none) ∧
        (Point3d.from_str parseT s = ParseOutcome.panics ↔ (parseT a).isSome))) ∧
    (∀ a b, splitComma s.data = [a, b] →
      ((Point3d.from_str parseT s = ParseOutcome.error ↔
          (parseT a = none ∨ parseT b = none)) ∧
        (Point3d.from_str parseT s = ParseOutcome.panics ↔
          ((parseT a).isSome ∧ (parseT b).isSome)))) := by
  unfold Point3d.from_str
  refine ⟨?_, ?_, ?_⟩
  · intro a b c rest h
    rw [h]
    cases hpa : parseT a <;> cases hpb : parseT b <;> cases hpc : parseT c <;>
      simp [hpa, hpb, hpc]
  · intro a h
    rw [h]
    cases hpa : parseT a <;> simp [hpa]
  · intro a b h
    rw [h]
    cases hpa : parseT a <;> cases hpb : parseT b <;> simp [hpa, hpb]

/-- C10: both parsers silently ignore extra trailing fields: when the first
two `", "`-separated pieces of the 2D input are well-formed `x=`/`y=` fields
whose numeric parts parse, 2D parsing succeeds with those two values whatever
pieces follow; when the first three comma-separated fields of the 3D input
parse, 3D parsing succeeds with those three values whatever fields follow. -/
theorem from_str_ignores_trailing_fields {T : Type}
    (parseT : List Char → Option T) (s s3 : String)
    (f1 f2 : List Char) (rest : List (List Char)) (xs ys : List Char) (x y : T)
    (a b c : List Char) (rest3 : List (List Char)) (x3 y3 z3 : T)
    (h1 : splitCommaSpace s.data = f1 :: f2 :: rest)
    (h2 : split_once '=' f1 = some (['x'], xs))
    (h3 : split_once '=' f2 = some (['y'], ys))
    (h4 : parseT xs = some x) (h5 : parseT ys = some y)
    (g1 : splitComma s3.data = a :: b :: c :: rest3)
    (g2 : parseT a = some x3) (g3 : parseT b = some y3)
    (g4 : parseT c = some z3) :
    Point.from_str parseT s = ParseOutcome.ok ⟨x, y⟩ ∧
    Point3d.from_str parseT s3 = ParseOutcome.ok ⟨x3, y3, z3⟩ := by
  constructor
  · unfold Point.from_str
    rw [h1]
    simp [h2, h3, h4, h5]
  · unfold Point3d.from_str
    rw [g1]
    simp [g2, g3, g4]

/-- C10 witness: `"x=1, y=2, z=3"` parses as the 2D point `(1, 2)` although a
third `z=` piece follows, and `"1,2,3,4"` parses as the 3D point `(1, 2, 3)`
although a fourth field follows. -/
theorem from_str_ignores_trailing_fields_witness :
    Point.from_str parseSignedInt "x=1, y=2, z=3" = ParseOutcome.ok ⟨1, 2⟩ ∧
    Point3d.from_str parseSignedInt "1,2,3,4" = ParseOutcome.ok ⟨1, 2, 3⟩ :=
  from_str_ignores_trailing_fields parseSignedInt "x=1, y=2, z=3" "1,2,3,4"
    "x=1".data "y=2".data ["z=3".data] "1".data "2".data 1 2
    "1".data "2".data "3".data ["4".data] 1 2 3
    (by decide) (by decide) (by decide) (by decide) (by decide)
    (by decide) (by decide) (by decide) (by decide)
